import Mathlib

/-!
# DilemmaForge — verification of the settlement engine specification

Shallow embedding of the DilemmaForge source (a Devvit daily prisoner's
dilemma game) and proofs about it.  The embedded modules are:

* `src/utils/constants.ts` — `GAME_CONFIG` and the `REDIS_KEYS` key
  generators (modelled by the list of member names the object defines);
* `src/utils/game.ts` — `calculateResults`;
* `src/utils/streaks.ts` — `calculateStreak`, `updateUserStats`,
  `isValidChoice`, `parseHistoryEntry`, `normalizeHistoryEntry`;
* `src/main.tsx` — `releaseLock`, `finalizeDailyResults`,
  `awardUserPoints`, `handleVote`.

Modelling conventions:

* ISO `YYYY-MM-DD` day strings are modelled by their UTC epoch-day
  number (an `Int`); the source only ever compares and subtracts parsed
  midnight timestamps, and a difference of one UTC day in milliseconds
  floored by `864e5` is exactly the difference of the day numbers.
* JavaScript numbers holding counts, scores and points are modelled as
  `Int`; the percentage arithmetic of `calculateResults` is carried out
  in IEEE-754 binary64 ("double") arithmetic, as JavaScript does, via the
  exact significand/exponent representation `D64` below.
* Redis is modelled as a record with one field per key the examined
  functions address; `redis.set` with `nx: true` is set-if-absent, and
  every `await`ed store access is one atomic step.
* The `REDIS_KEYS` object of `src/utils/constants.ts` does not define the
  generators `dailyFinalizeLock`, `userAwardLock` and `userScore` that
  `main.tsx` calls (`REDIS_KEYS_members` below).  In JavaScript, calling
  an undefined member throws a `TypeError`; `finalizeDailyResults` and
  `awardUserPoints` therefore abort into their catch-all handlers at
  their first such access, and `handleVote`'s accepted branch aborts
  mid-way.  The embeddings of these functions model exactly the store
  accesses the staged code performs before the throw.
-/

/-- The two mutually exclusive daily choices (`Choice` in `game.ts`;
the `null` case of the TS union is represented by `Option Choice`). -/
inductive Choice where
  | cooperate
  | defect
deriving DecidableEq, Repr

/-- `isValidChoice` from `streaks.ts`: a value is a valid choice iff it is
`'cooperate'` or `'defect'` (never `null`). -/
def isValidChoice : Option Choice → Bool
  | some .cooperate => true
  | some .defect => true
  | none => false

/-- Outcome categories of a settled day (`DailyResults['outcome']`). -/
inductive Outcome where
  | allCooperate
  | allDefect
  | mixed
deriving DecidableEq, Repr

/-! ## IEEE-754 binary64 arithmetic

`game.ts` computes its percentages with JavaScript numbers, i.e. IEEE-754
binary64 ("double") arithmetic: each `+`, `/` and `*` rounds its exact
result to a 53-bit significand, to nearest, ties to even.  A finite
non-negative double is represented below by an exact significand/exponent
pair `D64`, and each arithmetic step is the exact rational operation
followed by the rounding `roundF`.  Overflow to infinity and subnormal
underflow lie far outside the magnitudes that vote counts and percentages
reach and are not modelled; the fuel `1200` of the exponent searches
covers the whole binary64 exponent range. -/

/-- Round `n / d` (`0 < d`) to the nearest integer, ties to even. -/
def rne (n d : ℕ) : ℕ :=
  let q0 := n / d
  let r := n % d
  if 2 * r < d then q0
  else if d < 2 * r then q0 + 1
  else if q0 % 2 = 0 then q0 else q0 + 1

/-- Fueled search for the binary exponent of `n / d ≥ 1`: given
`dk = d * 2 ^ k ≤ n`, find the largest `k` with `d * 2 ^ k ≤ n`. -/
def findEUp : ℕ → ℕ → ℕ → ℕ → ℕ
  | 0, k, _, _ => k
  | fuel + 1, k, dk, n =>
      if n < 2 * dk then k else findEUp fuel (k + 1) (2 * dk) n

/-- Fueled search for the binary exponent of `n / d < 1`: given
`nj = n * 2 ^ j`, find the smallest `j` with `d ≤ n * 2 ^ j`. -/
def findEDown : ℕ → ℕ → ℕ → ℕ → ℕ
  | 0, j, _, _ => j
  | fuel + 1, j, nj, d =>
      if d ≤ nj then j else findEDown fuel (j + 1) (2 * nj) d

/-- A finite non-negative binary64 value, representing `m * 2 ^ e`
exactly; after rounding, `m` is a 53-bit significand (or `0`). -/
structure D64 where
  m : ℕ
  e : ℤ
deriving DecidableEq, Repr

/-- The exact rational value of a `D64`. -/
def D64.toRat (x : D64) : ℚ := (x.m : ℚ) * (2 : ℚ) ^ x.e

/-- Round the exact non-negative rational `n / d` to binary64
(round-to-nearest, ties to even, 53-bit significand). -/
def roundF (n d : ℕ) : D64 :=
  if n = 0 ∨ d = 0 then ⟨0, 0⟩
  else if d ≤ n then
    let k := findEUp 1200 0 d n
    if k ≤ 52 then ⟨rne (n * 2 ^ (52 - k)) d, (k : ℤ) - 52⟩
    else ⟨rne n (d * 2 ^ (k - 52)), (k : ℤ) - 52⟩
  else
    let j := findEDown 1200 1 (2 * n) d
    ⟨rne (n * 2 ^ (52 + j)) d, -(52 + j : ℤ)⟩

/-- Binary64 comparison `x ≤ y`, decided exactly on the significands
after aligning the exponents. -/
def D64.le (x y : D64) : Bool :=
  if x.e ≤ y.e then decide (x.m ≤ y.m * 2 ^ (y.e - x.e).toNat)
  else decide (x.m * 2 ^ (x.e - y.e).toNat ≤ y.m)

/-- The double holding a natural number (JavaScript number literals and
integer-valued counters; exact below `2 ^ 53`). -/
def D64.ofNat (n : ℕ) : D64 := roundF n 1

/-- Binary64 division of the exact natural `n` by the double `t`: the
exact quotient, rounded. -/
def divNatD (n : ℕ) (t : D64) : D64 :=
  if 0 ≤ t.e then roundF n (t.m * 2 ^ t.e.toNat)
  else roundF (n * 2 ^ (-t.e).toNat) t.m

/-- Binary64 multiplication of the double `x` by `100`: the exact
product, rounded. -/
def mul100D (x : D64) : D64 :=
  if 0 ≤ x.e then roundF (x.m * 100 * 2 ^ x.e.toNat) 1
  else roundF (x.m * 100) (2 ^ (-x.e).toNat)

/-- `GAME_CONFIG` from `constants.ts`. -/
structure GameConfig where
  COOPERATE_THRESHOLD : ℕ
  DEFECT_THRESHOLD : ℕ
  ALL_COOPERATE_POINTS : ℤ
  ALL_DEFECT_POINTS : ℤ
  MIXED_DEFECT_POINTS : ℤ
  MIXED_COOPERATE_POINTS : ℤ
  MAX_SHARE_GRID_DAYS : ℕ
  SHARE_GRID_ROW_LENGTH : ℕ

def GAME_CONFIG : GameConfig where
  COOPERATE_THRESHOLD := 70
  DEFECT_THRESHOLD := 70
  ALL_COOPERATE_POINTS := 3
  ALL_DEFECT_POINTS := 1
  MIXED_DEFECT_POINTS := 5
  MIXED_COOPERATE_POINTS := 0
  MAX_SHARE_GRID_DAYS := 30
  SHARE_GRID_ROW_LENGTH := 10

/-- Result triple of `calculateResults`. -/
structure CalcResult where
  outcome : Outcome
  pointsForCooperators : ℤ
  pointsForDefectors : ℤ
deriving DecidableEq, Repr

/-- `calculateResults` from `game.ts`, on non-negative integer counts
(counters only ever reach values below `2 ^ 53`, where a JavaScript
number holds them exactly).  `totalVotes` is the double sum; the
`totalVotes === 0` test is `m = 0`, since a non-negative double is zero
exactly when its significand is; `cooperatePercent` and `defectPercent`
are the doubles `(count / totalVotes) * 100`, each operation rounding as
JavaScript does; the threshold comparisons are double comparisons. -/
def calculateResults (cooperateCount defectCount : ℕ) : CalcResult :=
  let totalVotes := D64.ofNat (cooperateCount + defectCount)
  if totalVotes.m = 0 then
    { outcome := .mixed, pointsForCooperators := 0, pointsForDefectors := 0 }
  else
    let cooperatePercent := mul100D (divNatD cooperateCount totalVotes)
    let defectPercent := mul100D (divNatD defectCount totalVotes)
    if (D64.ofNat GAME_CONFIG.COOPERATE_THRESHOLD).le cooperatePercent then
      { outcome := .allCooperate,
        pointsForCooperators := GAME_CONFIG.ALL_COOPERATE_POINTS,
        pointsForDefectors := GAME_CONFIG.ALL_COOPERATE_POINTS }
    else if (D64.ofNat GAME_CONFIG.DEFECT_THRESHOLD).le defectPercent then
      { outcome := .allDefect,
        pointsForCooperators := GAME_CONFIG.ALL_DEFECT_POINTS,
        pointsForDefectors := GAME_CONFIG.ALL_DEFECT_POINTS }
    else
      { outcome := .mixed,
        pointsForCooperators := GAME_CONFIG.MIXED_COOPERATE_POINTS,
        pointsForDefectors := GAME_CONFIG.MIXED_DEFECT_POINTS }

example : calculateResults 7 1 = ⟨.allCooperate, 3, 3⟩ := by decide
example : calculateResults 1 7 = ⟨.allDefect, 1, 1⟩ := by decide
example : calculateResults 2 3 = ⟨.mixed, 0, 5⟩ := by decide
example : calculateResults 0 0 = ⟨.mixed, 0, 0⟩ := by decide

/-- The exponent search never overshoots: its result `k` still satisfies
`d * 2 ^ k ≤ n`. -/
theorem findEUp_le (fuel : ℕ) : ∀ (k dk n d : ℕ), dk = d * 2 ^ k → dk ≤ n →
    d * 2 ^ (findEUp fuel k dk n) ≤ n := by
  induction fuel with
  | zero =>
      intro k dk n d hdk h
      rw [findEUp, ← hdk]
      exact h
  | succ fuel ih =>
      intro k dk n d hdk h
      rw [findEUp]
      split
      · rw [← hdk]; exact h
      · exact ih (k + 1) (2 * dk) n d (by rw [hdk]; ring) (by omega)

/-- Rounding `n / d` with `0 < d ≤ n` gives a positive integer. -/
theorem rne_pos (n d : ℕ) (hd : 0 < d) (h : d ≤ n) : 0 < rne n d := by
  have h1 : 1 ≤ n / d := (Nat.one_le_div_iff hd).mpr h
  unfold rne
  dsimp only
  split_ifs <;> omega

/-- Rounding a rational that is at least 1 gives a positive significand. -/
theorem roundF_m_pos (n d : ℕ) (hn : 0 < n) (hd : 0 < d) (h : d ≤ n) :
    0 < (roundF n d).m := by
  have hdk : d * 2 ^ findEUp 1200 0 d n ≤ n :=
    findEUp_le 1200 0 d n d (by ring) (by simpa using h)
  unfold roundF
  rw [if_neg (by omega), if_pos h]
  dsimp only
  split
  · exact rne_pos _ _ hd
      (le_trans h (Nat.le_mul_of_pos_right n (Nat.pos_pow_of_pos _ (by omega))))
  · refine rne_pos _ _ (Nat.mul_pos hd (Nat.pos_pow_of_pos _ (by omega))) ?_
    calc d * 2 ^ (findEUp 1200 0 d n - 52)
        ≤ d * 2 ^ findEUp 1200 0 d n :=
          Nat.mul_le_mul_left d (Nat.pow_le_pow_right (by omega) (by omega))
      _ ≤ n := hdk

/-- The binary64 comparison agrees with the exact rational order. -/
theorem D64.le_iff (x y : D64) : x.le y = true ↔ x.toRat ≤ y.toRat := by
  unfold D64.le D64.toRat
  have h2 : (0 : ℚ) < 2 := by norm_num
  split_ifs with hxy
  · have ht : ((y.e - x.e).toNat : ℤ) = y.e - x.e := Int.toNat_of_nonneg (by omega)
    rw [decide_eq_true_eq]
    have hy : (2 : ℚ) ^ y.e =
        ((2 ^ (y.e - x.e).toNat : ℕ) : ℚ) * (2 : ℚ) ^ x.e := by
      push_cast
      rw [← zpow_natCast (2 : ℚ) (y.e - x.e).toNat, ht, ← zpow_add₀ (by norm_num)]
      ring_nf
    rw [hy, ← mul_assoc, mul_le_mul_right (zpow_pos h2 x.e)]
    push_cast
    constructor
    · intro hle; exact_mod_cast hle
    · intro hle; exact_mod_cast hle
  · have ht : ((x.e - y.e).toNat : ℤ) = x.e - y.e := Int.toNat_of_nonneg (by omega)
    rw [decide_eq_true_eq]
    have hx : (2 : ℚ) ^ x.e =
        ((2 ^ (x.e - y.e).toNat : ℕ) : ℚ) * (2 : ℚ) ^ y.e := by
      push_cast
      rw [← zpow_natCast (2 : ℚ) (x.e - y.e).toNat, ht, ← zpow_add₀ (by norm_num)]
      ring_nf
    rw [hx, ← mul_assoc, mul_le_mul_right (zpow_pos h2 y.e)]
    push_cast
    constructor
    · intro hle; exact_mod_cast hle
    · intro hle; exact_mod_cast hle

/-- The double holding 70 is exact. -/
theorem D64.ofNat70_toRat : (D64.ofNat 70).toRat = 70 := by
  have h : D64.ofNat 70 = ⟨4925812092436480, -46⟩ := by decide
  rw [h]
  unfold D64.toRat
  rw [zpow_neg]
  norm_num

/-- C2 counterexample: at cooperate count 3736236553139869 and defect
count 1601244237059944 (total below `2 ^ 53`), the exact cooperate share
is strictly below 70% (`10 c < 7 (c + d)`), yet the source's
double-precision `(c / (c+d)) * 100` rounds to exactly 70.0 and
`calculateResults` returns all-cooperate with +3/+3 — so the claimed
equivalence between the outcome and the exact rational threshold test
`c / (c+d) * 100 ≥ 70` is false of the program. -/
theorem calculateResults_float_boundary_counterexample :
    calculateResults 3736236553139869 1601244237059944 = ⟨.allCooperate, 3, 3⟩ ∧
    10 * 3736236553139869 < 7 * (3736236553139869 + 1601244237059944) ∧
    (3736236553139869 : ℚ) / ((3736236553139869 : ℚ) + (1601244237059944 : ℚ)) * 100 < 70 := by
  refine ⟨by decide, by norm_num, by norm_num⟩

/-- C2 amended: with the percentages computed in binary64 arithmetic as
the source computes them, the three-way inclusive rule holds: for a
positive total of counts below `2 ^ 53` (the exactly representable
range), the outcome is all-cooperate with +3/+3 iff the double
`(c / (c+d)) * 100` is at least 70; failing that, all-defect with +1/+1
iff the double defect percentage is at least 70; failing both, mixed with
0 for cooperators and +5 for defectors; and the threshold comparison is
inclusive, `calculateResults 7 3` (whose double cooperate percentage is
exactly 70.0) being all-cooperate and `calculateResults 3 7` all-defect.
For exact rational percentages the equivalence fails at huge counts
(`calculateResults_float_boundary_counterexample`). -/
theorem calculateResults_threshold_float (c d : ℕ) (hpos : 0 < c + d)
    (hc : c < 2 ^ 53) (hd : d < 2 ^ 53) :
    ((calculateResults c d = ⟨.allCooperate, 3, 3⟩) ↔
      (70 : ℚ) ≤ (mul100D (divNatD c (D64.ofNat (c + d)))).toRat) ∧
    (¬ ((70 : ℚ) ≤ (mul100D (divNatD c (D64.ofNat (c + d)))).toRat) →
      ((calculateResults c d = ⟨.allDefect, 1, 1⟩) ↔
        (70 : ℚ) ≤ (mul100D (divNatD d (D64.ofNat (c + d)))).toRat)) ∧
    (¬ ((70 : ℚ) ≤ (mul100D (divNatD c (D64.ofNat (c + d)))).toRat) →
      ¬ ((70 : ℚ) ≤ (mul100D (divNatD d (D64.ofNat (c + d)))).toRat) →
      calculateResults c d = ⟨.mixed, 0, 5⟩) ∧
    calculateResults 7 3 = ⟨.allCooperate, 3, 3⟩ ∧
    calculateResults 3 7 = ⟨.allDefect, 1, 1⟩ := by
  have hbr : ∀ p : D64, ((D64.ofNat 70).le p = true) ↔ (70 : ℚ) ≤ p.toRat := by
    intro p
    rw [D64.le_iff, D64.ofNat70_toRat]
  have hm0 : ¬ ((D64.ofNat (c + d)).m = 0) := by
    have := roundF_m_pos (c + d) 1 (by omega) (by omega) (by omega)
    unfold D64.ofNat
    omega
  refine ⟨?_, ?_, ?_, by decide, by decide⟩
  · unfold calculateResults
    simp only [GAME_CONFIG, if_neg hm0]
    split_ifs with h1 h2
    · rw [hbr] at h1
      exact iff_of_true rfl h1
    · rw [hbr] at h1
      exact iff_of_false (by simp) h1
    · rw [hbr] at h1
      exact iff_of_false (by simp) h1
  · intro hcp
    unfold calculateResults
    simp only [GAME_CONFIG, if_neg hm0]
    split_ifs with h1 h2
    · rw [hbr] at h1
      exact absurd h1 hcp
    · rw [hbr] at h2
      exact iff_of_true rfl h2
    · rw [hbr] at h2
      exact iff_of_false (by simp) h2
  · intro hcp hdp
    unfold calculateResults
    simp only [GAME_CONFIG, if_neg hm0]
    split_ifs with h1 h2
    · rw [hbr] at h1
      exact absurd h1 hcp
    · rw [hbr] at h2
      exact absurd h2 hdp
    · rfl

/-- Witness for `calculateResults_threshold_float` at the boundary input
`(7, 3)`. -/
theorem calculateResults_threshold_float_witness :
    calculateResults 7 3 = ⟨.allCooperate, 3, 3⟩ :=
  (calculateResults_threshold_float 7 3 (by decide) (by decide)
    (by decide)).2.2.2.1

/-! ## Streak and history tracking (`src/utils/streaks.ts`) -/

/-- A normalized history entry `{day, choice}`; `choice` is `none` for the
`null` choice produced by `YYYY-MM-DD`-only legacy strings. -/
structure Entry where
  day : ℤ
  choice : Option Choice
deriving DecidableEq, Repr

/-- Classification of a raw string history entry by the branches of
`parseHistoryEntry` in `streaks.ts`: a string whose `JSON.parse` yields an
object with a string `day` and a `null`-or-valid `choice`; a plain
`YYYY-MM-DD` date string; or anything else. -/
inductive RawString where
  | jsonEntry (day : ℤ) (choice : Option Choice)
  | dateOnly (day : ℤ)
  | garbage
deriving DecidableEq, Repr

/-- A raw history entry (`HistoryEntry` in `game.ts`): a legacy string, an
object with a string `day` and a `null`-or-valid `choice`, or an object
failing that shape check. -/
inductive RawEntry where
  | str (s : RawString)
  | obj (day : ℤ) (choice : Option Choice)
  | objBad
deriving DecidableEq, Repr

/-- `parseHistoryEntry` from `streaks.ts`: JSON entries and plain date
strings parse (the latter with `null` choice); everything else is `null`. -/
def parseHistoryEntry : RawString → Option Entry
  | .jsonEntry d c => some ⟨d, c⟩
  | .dateOnly d => some ⟨d, none⟩
  | .garbage => none

/-- `normalizeHistoryEntry` from `streaks.ts`. -/
def normalizeHistoryEntry : RawEntry → Option Entry
  | .str s => parseHistoryEntry s
  | .obj d c => some ⟨d, c⟩
  | .objBad => none

/-- Stable insertion of an entry into a day-descending list, after every
element whose day is ≥ its own. -/
def insertDesc (e : Entry) : List Entry → List Entry
  | [] => [e]
  | x :: xs => if e.day ≤ x.day then x :: insertDesc e xs else e :: x :: xs

/-- The stable descending sort `[...history].sort((a, b) => b - a)` of
`calculateStreak` (JavaScript `Array.prototype.sort` is stable; a stable
insertion sort computes the same ordering). -/
def sortByDayDesc (l : List Entry) : List Entry :=
  l.foldl (fun acc e => insertDesc e acc) []

/-- The current-streak loop of `calculateStreak`: entry `i` of the
descending-sorted history must be day `today - i`, stopping at the first
mismatch. -/
def currentStreakFrom (today : ℤ) : ℕ → List Entry → ℕ
  | _, [] => 0
  | i, e :: rest =>
      if e.day = today - i then currentStreakFrom today (i + 1) rest + 1 else 0

/-- One step of the longest-streak scan of `calculateStreak`
(state: `(lastDate, tempStreak, longestStreak)`): a gap of exactly one
calendar day extends the run, anything else closes it. -/
def longestStep : Option ℤ × ℕ × ℕ → Entry → Option ℤ × ℕ × ℕ
  | (none, _, longest), e => (some e.day, 1, longest)
  | (some last, temp, longest), e =>
      if last - e.day = 1 then (some e.day, temp + 1, longest)
      else (some e.day, 1, max longest temp)

/-- `calculateStreak` from `streaks.ts`, returning
`(currentStreak, longestStreak)`. The source reads the present UTC day from
the clock; it is passed here as `today`. Days are epoch-day numbers:
`Math.floor((last - current) / 86400000)` on UTC-midnight timestamps is
exactly the difference of day numbers. -/
def calculateStreak (today : ℤ) (history : List Entry) : ℕ × ℕ :=
  if history.isEmpty then (0, 0)
  else
    let sortedHistory := sortByDayDesc history
    let currentStreak := currentStreakFrom today 0 sortedHistory
    let st := sortedHistory.foldl longestStep (none, 0, 0)
    (currentStreak, max st.2.2 st.2.1)

/-- `UserStats` from `game.ts`; `history` holds raw (legacy string or
object) entries. -/
structure UserStats where
  totalScore : ℤ
  currentStreak : ℕ
  longestStreak : ℕ
  totalVotes : ℤ
  cooperateCount : ℤ
  defectCount : ℤ
  history : List RawEntry
deriving DecidableEq, Repr

/-- `updateUserStats` from `streaks.ts`; `today` is the present UTC day read
from the clock inside `calculateStreak`. -/
def updateUserStats (today : ℤ) (currentStats : UserStats)
    (newVote : Entry) (points : ℤ) : UserStats :=
  let history := currentStats.history ++ [RawEntry.obj newVote.day newVote.choice]
  let normalizedHistory := history.filterMap normalizeHistoryEntry
  let st := calculateStreak today normalizedHistory
  { totalScore := currentStats.totalScore + points
    currentStreak := st.1
    longestStreak := max st.2 currentStats.longestStreak
    totalVotes := currentStats.totalVotes + 1
    cooperateCount := currentStats.cooperateCount +
      (if newVote.choice = some .cooperate then 1 else 0)
    defectCount := currentStats.defectCount +
      (if newVote.choice = some .defect then 1 else 0)
    history := normalizedHistory.map (fun e => RawEntry.obj e.day e.choice) }

/-- C7: three consecutive days ending today give streaks (3, 3); two runs of
lengths 2 and 3 separated by one missing day give longest 3 with the current
streak counting only the run touching today (3 when the recent run has
length 3, 2 when it has length 2, the latter showing the final sorted run
feeding the maximum); a one-day difference between sorted entries continues
a run and a larger difference breaks it. -/
theorem calculateStreak_consecutive_and_gap :
    calculateStreak 100
      [⟨98, some .cooperate⟩, ⟨99, some .defect⟩, ⟨100, some .cooperate⟩]
      = (3, 3) ∧
    calculateStreak 100
      [⟨95, some .cooperate⟩, ⟨96, some .cooperate⟩,
       ⟨98, some .cooperate⟩, ⟨99, some .cooperate⟩, ⟨100, some .cooperate⟩]
      = (3, 3) ∧
    calculateStreak 100
      [⟨95, some .cooperate⟩, ⟨96, some .cooperate⟩, ⟨97, some .cooperate⟩,
       ⟨99, some .cooperate⟩, ⟨100, some .cooperate⟩]
      = (2, 3) := by
  decide

/-- Whether a raw history entry survives the parse-and-validate step. -/
def parsesOK (e : RawEntry) : Bool :=
  (normalizeHistoryEntry e).isSome

/-- Filtering a history to the entries that parse does not change its
normalization. -/
theorem filterMap_filter_parsesOK (l : List RawEntry) :
    (l.filter parsesOK).filterMap normalizeHistoryEntry =
      l.filterMap normalizeHistoryEntry := by
  induction l with
  | nil => rfl
  | cons a l ih =>
      cases hfa : normalizeHistoryEntry a <;>
        simp [List.filter_cons, List.filterMap_cons, parsesOK, hfa, ih]

/-- C8: `updateUserStats` skips malformed history entries without failing
and without substituting a default choice: unparseable strings and
shape-invalid objects normalize to `none` (never to a `cooperate` default),
and deleting exactly the entries that fail to parse from the stored history
leaves the result of `updateUserStats` unchanged — so corrupt entries do not
affect the processing of the rest. -/
theorem updateUserStats_skips_malformed :
    normalizeHistoryEntry (.str .garbage) = none ∧
    normalizeHistoryEntry .objBad = none ∧
    (∀ s : RawString, parseHistoryEntry s = none →
      normalizeHistoryEntry (.str s) = none) ∧
    (∀ (today : ℤ) (stats : UserStats) (newVote : Entry) (points : ℤ),
      updateUserStats today
        { stats with history := stats.history.filter parsesOK } newVote points =
      updateUserStats today stats newVote points) := by
  refine ⟨rfl, rfl, fun s h => h, fun today stats newVote points => ?_⟩
  simp only [updateUserStats, List.filterMap_append, filterMap_filter_parsesOK]

/-- Witness for `updateUserStats_skips_malformed`: deleting a garbage entry
from a concrete stored history does not change the updated stats. -/
theorem updateUserStats_skips_malformed_witness :
    updateUserStats 100
      { totalScore := 4, currentStreak := 1, longestStreak := 1,
        totalVotes := 1, cooperateCount := 1, defectCount := 0,
        history := List.filter parsesOK
          [.obj 99 (some .cooperate), .str .garbage, .objBad] }
      ⟨100, some .defect⟩ 0 =
    updateUserStats 100
      { totalScore := 4, currentStreak := 1, longestStreak := 1,
        totalVotes := 1, cooperateCount := 1, defectCount := 0,
        history := [.obj 99 (some .cooperate), .str .garbage, .objBad] }
      ⟨100, some .defect⟩ 0 :=
  updateUserStats_skips_malformed.2.2.2 100
    { totalScore := 4, currentStreak := 1, longestStreak := 1,
      totalVotes := 1, cooperateCount := 1, defectCount := 0,
      history := [.obj 99 (some .cooperate), .str .garbage, .objBad] }
    ⟨100, some .defect⟩ 0

/-- C10: the `longestStreak` returned by `updateUserStats` is never smaller
than the stored `longestStreak` of the input stats, whatever the recomputed
streak over the normalized history is. -/
theorem updateUserStats_longestStreak_monotone
    (today : ℤ) (stats : UserStats) (newVote : Entry) (points : ℤ) :
    stats.longestStreak ≤ (updateUserStats today stats newVote points).longestStreak := by
  simp only [updateUserStats]
  exact le_max_right _ _

/-! ## Redis key generators (`src/utils/constants.ts`) -/

def REDIS_KEYS_userVote (postId userId day : String) : String :=
  "post:" ++ postId ++ ":user:" ++ userId ++ ":day:" ++ day ++ ":vote"

def REDIS_KEYS_dailyCooperateCount (postId day : String) : String :=
  "post:" ++ postId ++ ":day:" ++ day ++ ":cooperate"

def REDIS_KEYS_dailyDefectCount (postId day : String) : String :=
  "post:" ++ postId ++ ":day:" ++ day ++ ":defect"

def REDIS_KEYS_dailyResults (postId day : String) : String :=
  "post:" ++ postId ++ ":day:" ++ day ++ ":results"

def REDIS_KEYS_dailyFinalized (postId day : String) : String :=
  "post:" ++ postId ++ ":day:" ++ day ++ ":finalized"

def REDIS_KEYS_userStats (postId userId : String) : String :=
  "post:" ++ postId ++ ":user:" ++ userId ++ ":stats"

def REDIS_KEYS_userHistory (postId userId : String) : String :=
  "post:" ++ postId ++ ":user:" ++ userId ++ ":history"

/-- The complete list of member names the `REDIS_KEYS` object of
`src/utils/constants.ts` defines, in source order. -/
def REDIS_KEYS_members : List String :=
  ["userVote", "dailyCooperateCount", "dailyDefectCount", "dailyResults",
   "dailyFinalized", "userStats", "userHistory"]

/-- The `REDIS_KEYS` members `finalizeDailyResults` in `main.tsx` accesses,
in source order (lines 82, 94, 96, 110, 111). -/
def finalizeDailyResults_keyMembers : List String :=
  ["dailyFinalizeLock", "dailyFinalized", "dailyResults",
   "dailyCooperateCount", "dailyDefectCount"]

/-- The `REDIS_KEYS` members `awardUserPoints` in `main.tsx` accesses, in
source order (lines 179, 193, 214, 217, 225). -/
def awardUserPoints_keyMembers : List String :=
  ["userVote", "dailyResults", "userScore", "userStats", "userAwardLock"]

/-- C3: the settlement and award code accesses `REDIS_KEYS` members that the
constants module does not define — `dailyFinalizeLock`, `userAwardLock` and
`userScore` are absent from `REDIS_KEYS`, so the claim that every accessed
member is a defined key generator fails: at runtime the very first such
access throws, diverting every `finalizeDailyResults` and `awardUserPoints`
invocation into its catch-all handler before the settlement or award body
can run. -/
theorem redisKeys_award_members_undefined :
    "dailyFinalizeLock" ∉ REDIS_KEYS_members ∧
    "userAwardLock" ∉ REDIS_KEYS_members ∧
    "userScore" ∉ REDIS_KEYS_members ∧
    ¬ (∀ k ∈ finalizeDailyResults_keyMembers ++ awardUserPoints_keyMembers,
        k ∈ REDIS_KEYS_members) := by
  refine ⟨by decide, by decide, by decide, fun h => ?_⟩
  exact absurd (h "dailyFinalizeLock" (by decide)) (by decide)

/-! ## Lock release (`releaseLock` in `main.tsx`)

Lock-holder tokens (`createLockId`: a timestamp plus a random suffix) are
modelled as opaque natural numbers. -/

/-- `releaseLock` from `main.tsx`, acting on the stored cell of the lock
key: it reads the current holder token and deletes the record only when it
equals the caller's `lockId`; the resulting cell value is returned. -/
def releaseLock (current : Option ℕ) (lockId : ℕ) : Option ℕ :=
  if current = some lockId then none else current

/-- C9: `releaseLock` deletes the lock record exactly when the stored token
equals the caller's token, and leaves the record unchanged whenever the
stored token differs (for instance a later holder's token written after the
original lock expired). -/
theorem releaseLock_deletes_iff_token_matches (current : Option ℕ) (lockId : ℕ) :
    (current = some lockId → releaseLock current lockId = none) ∧
    (current ≠ some lockId → releaseLock current lockId = current) := by
  constructor
  · intro h
    simp [releaseLock, h]
  · intro h
    simp [releaseLock, h]

/-- Witness for `releaseLock_deletes_iff_token_matches`: the holder of token
5 releases the lock; a caller presenting token 7 leaves it in place. -/
theorem releaseLock_deletes_iff_token_matches_witness :
    releaseLock (some 5) 5 = none ∧ releaseLock (some 5) 7 = some 5 :=
  ⟨(releaseLock_deletes_iff_token_matches (some 5) 5).1 rfl,
   (releaseLock_deletes_iff_token_matches (some 5) 7).2 (by decide)⟩

/-! ## Cycle finalization (`finalizeDailyResults` in `main.tsx`)

The very first statement of `finalizeDailyResults` (line 82) constructs
the lock key by calling `REDIS_KEYS.dailyFinalizeLock(postId, day)` — a
member the constants module does not define
(`redisKeys_award_members_undefined`).  The call throws a `TypeError`
before any redis access; the function's own catch-all (lines 156-159)
logs the error and returns.  So the staged function performs no store
operation at all: the lock is never attempted, the finalization marker
and the cached results are never read or written, and settlement never
happens.  The store cells its (unreachable) body addresses are kept as
the keyspace `FStore`, and every redis access would be logged in a trace
of `FOp`s — which stays empty. -/

/-- `DailyResults` from `game.ts` (the shape of a stored settled-results
record; the percentage fields hold the exact values of the stored
JavaScript numbers). -/
structure DailyResults where
  day : ℤ
  totalVotes : ℤ
  cooperateCount : ℤ
  defectCount : ℤ
  cooperatePercent : ℚ
  defectPercent : ℚ
  outcome : Outcome
  pointsForCooperators : ℤ
  pointsForDefectors : ℤ
deriving DecidableEq, Repr

/-- A stored daily counter cell: absent, holding a non-numeric string, or
holding a number (counters are only ever written by `incrBy` from
absence, hence natural). -/
inductive CountCell where
  | absent
  | bad
  | val (n : ℕ)
deriving DecidableEq, Repr

/-- The store cells the body of `finalizeDailyResults` addresses (all
scoped by post and day): the finalize lock, the finalization marker
(presence of the string `'true'`), the cached results, and the two
counters. -/
structure FStore where
  finalizeLock : Option ℕ
  finalized : Bool
  results : Option DailyResults
  cooperateCount : CountCell
  defectCount : CountCell
deriving DecidableEq, Repr

/-- The keys of `FStore`. -/
inductive FKey where
  | finalizeLock
  | finalized
  | results
  | cooperateCount
  | defectCount
deriving DecidableEq, Repr

/-- Redis operations `finalizeDailyResults` would log, in order. -/
inductive FOp where
  | get (k : FKey)
  | setNX (k : FKey)
  | set (k : FKey)
  | mset (ks : List FKey)
  | del (k : FKey)
deriving DecidableEq, Repr

/-- `finalizeDailyResults` from `main.tsx` for the cycle `day`, as
staged: line 82 throws a `TypeError` (`REDIS_KEYS.dailyFinalizeLock` is
not a function) before the first `await`; the catch-all at lines 156-159
swallows it and returns.  The store is untouched and the operation trace
is empty — the lock acquisition, the marker/results reads, the counter
reads, the `calculateResults` call and the `mSet` of the body are all
unreachable. -/
def finalizeDailyResults (day : ℤ) (s : FStore) : FStore × List FOp :=
  (s, [])

/-- A settled results record for a cycle that split 7 cooperate /
3 defect. -/
def sampleResults : DailyResults :=
  { day := 99, totalVotes := 10, cooperateCount := 7, defectCount := 3,
    cooperatePercent := 70, defectPercent := 30, outcome := .allCooperate,
    pointsForCooperators := 3, pointsForDefectors := 3 }

/-- A store whose cycle already has cached settled results (marker not
yet written) and a free finalize lock. -/
def cachedStore : FStore :=
  { finalizeLock := none, finalized := false, results := some sampleResults,
    cooperateCount := .val 7, defectCount := .val 3 }

/-- C4: the staged `finalizeDailyResults` aborts before its first redis
operation — the finalize-lock key construction at line 82 throws and the
catch-all returns — so for every store, in particular one whose settled
results are already cached, the store is returned unchanged with an empty
operation trace: no lock `setNX`, no marker or results write, and no read
of the cached results either, meaning the claimed cache fast path never
executes. -/
theorem finalizeDailyResults_aborts_before_redis :
    (∀ (day : ℤ) (s : FStore), finalizeDailyResults day s = (s, [])) ∧
    finalizeDailyResults 99 cachedStore = (cachedStore, []) ∧
    cachedStore.results = some sampleResults ∧
    cachedStore.finalized = false :=
  ⟨fun _ _ => rfl, rfl, rfl, rfl⟩

/-! ## Vote submission (`handleVote` in `main.tsx`) -/

/-- `UserVote` from `game.ts`; the optional `pointsAwarded` field is `false`
when absent (the source only ever tests its truthiness). -/
structure UserVote where
  choice : Option Choice
  timestamp : ℕ
  day : ℤ
  pointsAwarded : Bool
  pointsAwardedAt : Option ℕ
deriving DecidableEq, Repr

/-- The store cells `handleVote` touches, scoped by post, user and current
day: today's vote, today's two counters (absent merged with 0, as `incrBy`
treats a missing key as 0), the user's history array, the user's stats
record (`none` for absent or unparseable), and the user's score cell. -/
structure HStore where
  vote : Option UserVote
  cooperateCount : ℕ
  defectCount : ℕ
  history : Option (List RawEntry)
  stats : Option UserStats
  score : Option ℤ
deriving DecidableEq, Repr

/-- The keys of `HStore`. -/
inductive HKey where
  | vote
  | cooperateCount
  | defectCount
  | history
  | stats
  | score
deriving DecidableEq, Repr

/-- Redis operations performed by `handleVote`, in order. -/
inductive HOp where
  | get (k : HKey)
  | set (k : HKey)
  | setNX (k : HKey)
  | incrBy (k : HKey)
deriving DecidableEq, Repr

/-- How a `handleVote` invocation ends: filtered out by the guard (no
choice, already-voted session state), rejected because the conditional
create found an existing vote, or crashed — on the path where the create
succeeds, the `REDIS_KEYS.userScore` call (line 446) throws a `TypeError`
(the member is undefined, cf. `redisKeys_award_members_undefined`), and
the catch-all at line 485 shows an error toast and returns. -/
inductive HVResult where
  | ignored
  | alreadyVoted
  | crashed
deriving DecidableEq, Repr

/-- `handleVote` from `main.tsx` (lines 395-492): guard invalid or
repeated session input; create the vote with a conditional create (`nx`)
and reject if it already exists (re-reading the existing vote for display
only).  When the create succeeds, the staged code atomically increments
the chosen counter, appends to the history array and reads the stats
record (lines 426-445); the `REDIS_KEYS.userScore` call at line 446 then
throws before the score cell is read, so the score seeding, the
`updateUserStats` recomputation and the stats write never execute — the
invocation falls into the catch-all at line 485 with the vote write, the
counter increment and the history append already made and not rolled
back, and the stats and score cells untouched. -/
def handleVote (hasVotedToday : Bool) (choice : Option Choice)
    (currentDay : ℤ) (now : ℕ) (s : HStore) :
    HVResult × HStore × List HOp :=
  match choice with
  | none => (.ignored, s, [])
  | some c =>
    if hasVotedToday then (.ignored, s, [])
    else
      match s.vote with
      | some _ => (.alreadyVoted, s, [.setNX .vote, .get .vote])
      | none =>
        let vote : UserVote :=
          { choice := some c, timestamp := now, day := currentDay,
            pointsAwarded := false, pointsAwardedAt := none }
        let s1 := { s with vote := some vote }
        let s2 := if c = .cooperate
          then { s1 with cooperateCount := s1.cooperateCount + 1 }
          else { s1 with defectCount := s1.defectCount + 1 }
        let incOp := if c = .cooperate
          then HOp.incrBy .cooperateCount else HOp.incrBy .defectCount
        let history := (s2.history.getD []) ++ [RawEntry.obj currentDay (some c)]
        let s3 := { s2 with history := some history }
        (.crashed, s3,
         [.setNX .vote, incOp, .get .history, .set .history, .get .stats])

/-- C6: when a vote already exists for the participant and cycle,
`handleVote` returns not-accepted, the duplicate being detected by the
atomic conditional create itself (the first store operation is the `setNX`
on the vote key, with no preceding read), and the rejected submission
performs no store mutation at all: the store is returned unchanged — no
counter increment, no history append, no stats write. -/
theorem handleVote_duplicate_rejected
    (c : Choice) (currentDay : ℤ) (now : ℕ) (s : HStore) (v : UserVote)
    (hv : s.vote = some v) :
    handleVote false (some c) currentDay now s =
      (.alreadyVoted, s, [.setNX .vote, .get .vote]) := by
  rcases s with ⟨sv, cc, dc, hist, st, sc⟩
  cases sv with
  | none => simp at hv
  | some v0 => rfl

/-- Witness for `handleVote_duplicate_rejected`: a session that already
holds a cooperate vote for day 100 submits defect; the submission is
rejected with the store untouched. -/
theorem handleVote_duplicate_rejected_witness :
    handleVote false (some .defect) 100 77
      { vote := some { choice := some .cooperate, timestamp := 5, day := 100,
                       pointsAwarded := false, pointsAwardedAt := none },
        cooperateCount := 1, defectCount := 0, history := none,
        stats := none, score := none } =
      (.alreadyVoted,
       { vote := some { choice := some .cooperate, timestamp := 5, day := 100,
                        pointsAwarded := false, pointsAwardedAt := none },
         cooperateCount := 1, defectCount := 0, history := none,
         stats := none, score := none },
       [.setNX .vote, .get .vote]) :=
  handleVote_duplicate_rejected .defect 100 77 _
    { choice := some .cooperate, timestamp := 5, day := 100,
      pointsAwarded := false, pointsAwardedAt := none } rfl

/-! ## Participant awarding (`awardUserPoints` in `main.tsx`)

`awardUserPoints` (lines 171-264) may race against other invocations of
itself for the same participant and cycle: every store access is an
`await`, so invocations interleave arbitrarily between accesses.  The
machine below gives each invocation a program counter naming its next
store access, and a scheduler step that runs one access of one
invocation; a schedule (an arbitrary list of invocation indices) produces
an arbitrary interleaving.

As staged, an invocation performs at most three store accesses, all
reads: the vote read (line 180), the settled-results read (line 194),
and — when the results were absent — a second results read (line 198)
after a call to `finalizeDailyResults`, which itself aborts before any
store access (`finalizeDailyResults_aborts_before_redis`).  Once both
the vote and the results are in hand, the code computes the points
(line 210) and then calls `REDIS_KEYS.userScore` (line 214) — a member
the constants module does not define
(`redisKeys_award_members_undefined`) — so a `TypeError` is thrown into
the catch-all at lines 260-263, which logs and returns.  The score read,
the stats read, the score seeding, the award lock, the
`watch`/`multi`/`exec` transaction and the lock release are all
unreachable; no invocation ever writes any cell. -/

/-- The store cells `awardUserPoints` addresses for one participant and
one cycle: the vote and the settled results (the cells it actually
reads), plus the score cell, the stats record (only its parsed numeric
`totalScore` would be used, `none` covering absent, unparseable or
non-numeric) and the per-user award lock, which only the unreachable
tail of the body (lines 214-258) would touch.  Cells hold parsed values;
a present-but-unparseable vote is the `choice := none` case, and a
present-but-unparseable results value — never written by this app —
would return at line 204 with the same empty store effect as absence. -/
structure AStore where
  vote : Option UserVote
  score : Option ℤ
  stats : Option ℤ
  lock : Option ℕ
  results : Option DailyResults
deriving DecidableEq, Repr

/-- Program counter of one `awardUserPoints` invocation; each value names
its next awaited store access in `main.tsx` (source lines noted).  After
the results read (or the re-read, when the results had to be re-read
following the aborted finalize) the invocation is `done`: on every
continuation the next statement executed is an early `return` or the
throwing `REDIS_KEYS.userScore` call at line 214. -/
inductive APC where
  | readVote       -- 180: get the vote
  | readResults    -- 194: get the settled results
  | reReadResults  -- 198: re-read the results after the aborted finalize
  | done
deriving DecidableEq, Repr

/-- Local state of one invocation: its program counter and the values its
reads latched — the vote's choice, and the points computed at line 210
just before the line-214 throw. -/
structure AThread where
  pc : APC
  ch : Option Choice
  pts : ℤ
deriving DecidableEq, Repr

/-- Line 210: cooperators get `pointsForCooperators`, everyone else
`pointsForDefectors`. -/
def pointsFor (c : Choice) (r : DailyResults) : ℤ :=
  if c = .cooperate then r.pointsForCooperators else r.pointsForDefectors

/-- One atomic step of an `awardUserPoints` invocation, as staged.  At
`readVote`, the guards of lines 182 (`!voteData`), 185-188
(`!vote?.choice`) and 190 (`vote.pointsAwarded`) each end the invocation;
otherwise the choice is latched and the invocation proceeds to the
results read.  At `readResults`, absent results send it through the
no-op `finalizeDailyResults` call to the re-read of line 198; present
results let line 210 compute the points, after which line 214 throws and
the catch-all returns — the invocation is `done` with the store
untouched.  At `reReadResults`, absent results return at line 201;
present results end at line 214 the same way.  No branch modifies the
store. -/
def stepThread (s : AStore) (t : AThread) : AStore × AThread :=
  match t.pc with
  | .readVote =>
      match s.vote with
      | none => (s, { t with pc := .done })
      | some v =>
        match v.choice with
        | none => (s, { t with pc := .done })
        | some c =>
          if v.pointsAwarded then (s, { t with pc := .done })
          else (s, { t with pc := .readResults, ch := some c })
  | .readResults =>
      match s.results, t.ch with
      | none, _ => (s, { t with pc := .reReadResults })
      | some r, some c => (s, { t with pc := .done, pts := pointsFor c r })
      | some _, none => (s, { t with pc := .done })
  | .reReadResults =>
      match s.results, t.ch with
      | none, _ => (s, { t with pc := .done })
      | some r, some c => (s, { t with pc := .done, pts := pointsFor c r })
      | some _, none => (s, { t with pc := .done })
  | .done => (s, t)

/-- Scheduler step: run the next store access of invocation `k`. -/
def stepC {n : ℕ} (c : AStore × (Fin n → AThread)) (k : Fin n) :
    AStore × (Fin n → AThread) :=
  ((stepThread c.1 (c.2 k)).1,
   Function.update c.2 k (stepThread c.1 (c.2 k)).2)

/-- Run a schedule: an arbitrary interleaving of the invocations. -/
def runC {n : ℕ} (c : AStore × (Fin n → AThread)) (sched : List (Fin n)) :
    AStore × (Fin n → AThread) :=
  sched.foldl stepC c

theorem stepThread_fst (s : AStore) (t : AThread) : (stepThread s t).1 = s := by
  unfold stepThread
  repeat' split
  all_goals rfl

theorem runC_fst {n : ℕ} (c : AStore × (Fin n → AThread))
    (sched : List (Fin n)) : (runC c sched).1 = c.1 := by
  induction sched generalizing c with
  | nil => rfl
  | cons k rest ih =>
      have h1 : runC c (k :: rest) = runC (stepC c k) rest := rfl
      rw [h1, ih]
      exact stepThread_fst c.1 (c.2 k)

/-- C1: the claim's exactly-once award is false of the staged program —
the claimed increment never happens at all.  Every store access any
interleaving of `awardUserPoints` invocations performs is a read: each
invocation throws a `TypeError` at the `REDIS_KEYS.userScore` call (line
214) before the score cell, the award lock or the transaction is ever
touched, and the catch-all at line 260 returns.  So under every schedule
of every number of concurrent invocations the whole store — in
particular the participant's score and the vote with its awarded flag —
is exactly unchanged: the score increases zero times, never once, and
the flag never flips. -/
theorem awardUserPoints_never_awards {n : ℕ} (s : AStore)
    (ts : Fin n → AThread) (sched : List (Fin n)) :
    (runC (s, ts) sched).1 = s ∧
    (runC (s, ts) sched).1.score = s.score ∧
    (runC (s, ts) sched).1.vote = s.vote := by
  have h := runC_fst (s, ts) sched
  exact ⟨h, by rw [h], by rw [h]⟩

/-- C5 (amended): the claimed watch/exec transaction is dead code — the
staged awarder aborts at line 214 before the score key, the lock, the
`watch` or the `exec` is reached — so no invocation applies the score
increment or the awarded-flag flip, under optimistic concurrency control
or otherwise, and there is no read-and-increment step left to retry:
every single awaited step of an invocation leaves the store — in
particular the score, the vote and the lock cells — exactly as it found
it, and the award is left permanently unapplied by every invocation. -/
theorem awardUserPoints_applies_nothing (s : AStore) (t : AThread) :
    (stepThread s t).1 = s ∧
    (stepThread s t).1.score = s.score ∧
    (stepThread s t).1.vote = s.vote ∧
    (stepThread s t).1.lock = s.lock := by
  have h := stepThread_fst s t
  exact ⟨h, by rw [h], by rw [h], by rw [h]⟩

/-- An unawarded cooperate vote. -/
def awardVoteW : UserVote :=
  { choice := some .cooperate, timestamp := 5, day := 100,
    pointsAwarded := false, pointsAwardedAt := none }

/-- A store with the settled results cached and the participant's vote
present and unawarded — the situation in which the claimed award
transaction should commit. -/
def awardStoreW : AStore :=
  { vote := some awardVoteW, score := some 10, stats := some 10,
    lock := none, results := some sampleResults }

/-- One fresh invocation. -/
def awardThreadsW : Fin 1 → AThread :=
  fun _ => { pc := .readVote, ch := none, pts := 0 }

/-- C5 counterexample: with the settled results cached and an unawarded
cooperate vote in place, a single `awardUserPoints` invocation run to
completion (the vote read, then the results read, then the line-214
throw) ends `done` having computed the 3 cooperator points at line 210 —
yet the vote is still the unawarded `awardVoteW` and the score cell
still holds its base value: the award is left permanently unapplied by
the invocation, refuting the claim's final clause, and the transaction
whose conflict a retry would address was never even begun. -/
theorem awardUserPoints_nothing_applied_counterexample :
    awardStoreW.results = some sampleResults ∧
    awardStoreW.vote = some awardVoteW ∧
    awardVoteW.pointsAwarded = false ∧
    ((runC (awardStoreW, awardThreadsW) [0, 0]).2 0).pc = .done ∧
    ((runC (awardStoreW, awardThreadsW) [0, 0]).2 0).pts = 3 ∧
    (runC (awardStoreW, awardThreadsW) [0, 0]).1.vote = some awardVoteW ∧
    (runC (awardStoreW, awardThreadsW) [0, 0]).1.score = some 10 := by
  refine ⟨rfl, rfl, rfl, ?_, ?_, ?_, ?_⟩ <;> decide
